import Mathlib

/-!
Verification of the glaze webview binding layer.

This file gives a shallow embedding of the core logic of the repository:

* `appwindow.go` — transport resolution (`resolveAppTransport`) and the
  safety-checked unix-socket removal (`removeUnixSocket`).
* `webview.go` — the function-binding bridge (`makeFuncWrapper` validation
  and the invoker closure it returns), result marshaling
  (`callAndMarshal`, `marshalOrFallback`), the bind/unbind name tables,
  the dispatch table and its callback, and the native string reader
  (`goString`).

External collaborators (the Go `encoding/json` codec, the filesystem, the
native engine and the user-supplied functions themselves) are modelled as
explicit parameters: the embedded code is exactly the repository's control
flow over the outcomes those collaborators produce.  Go panics are modelled
with an explicit `Outcome` type whose `panicked` constructor propagates,
mirroring the fact that none of the embedded functions contain a
`recover` handler.
-/

namespace Glaze

/-- Outcome of running a piece of Go code that may panic.  The embedded
functions contain no `recover`, so a `panicked` outcome produced by a
callee propagates to the caller's outcome unchanged. -/
inductive Outcome (α : Type) where
  | ok (a : α)
  | panicked (msg : String)
deriving DecidableEq, Repr

/-! ## Transport resolution (`appwindow.go`, `resolveAppTransport`) -/

/-- `AppTransport` is a string type in the source; the three constants. -/
def AppTransportAuto : String := "auto"

def AppTransportTCP : String := "tcp"

def AppTransportUnix : String := "unix"

/-- Embedding of `resolveAppTransport(requested AppTransport, goos string)`.
Faithful to the `switch` in `appwindow.go`: empty or `auto` resolve by
platform, `tcp` always resolves to tcp, `unix` is rejected on windows,
anything else is an invalid-transport error. -/
def resolveAppTransport (requested : String) (goos : String) :
    Except String String :=
  if requested = "" ∨ requested = AppTransportAuto then
    if goos = "windows" then .ok AppTransportTCP else .ok AppTransportUnix
  else if requested = AppTransportTCP then .ok AppTransportTCP
  else if requested = AppTransportUnix then
    if goos = "windows" then
      .error "webview: unix transport is not supported on windows"
    else .ok AppTransportUnix
  else .error ("webview: invalid transport " ++ requested)

/-! ## Safety-checked socket removal (`appwindow.go`, `removeUnixSocket`) -/

/-- Result of the `os.Lstat` call, the external filesystem collaborator:
the path may not exist, stat may fail for another reason, or it yields a
file mode bitmask. -/
inductive StatResult where
  | notExist
  | statError (e : String)
  | info (mode : Nat)
deriving DecidableEq, Repr

/-- `os.ModeSocket` bit (1 <<< 24 in the Go `io/fs` mode layout). -/
def modeSocket : Nat := 2 ^ 24

/-- Embedding of `removeUnixSocket(path string) error`.  The filesystem is
external: `stat` is the outcome of `os.Lstat(path)` and `removeErr` the
outcome of `os.Remove(path)` (`none` = success).  The boolean in the
result records whether `os.Remove` was invoked at all, so that theorems
can state that a non-socket file is never deleted. -/
def removeUnixSocket (path : String) (stat : StatResult)
    (removeErr : Option String) : Bool × Except String Unit :=
  if path = "" then (false, .ok ())
  else
    match stat with
    | .notExist => (false, .ok ())
    | .statError e =>
        (false, .error ("webview: stat unix socket " ++ path ++ ": " ++ e))
    | .info mode =>
        if Nat.land mode modeSocket = 0 then
          (false, .error ("webview: " ++ path ++ " exists and is not a unix socket"))
        else
          match removeErr with
          | some e =>
              (true, .error ("webview: remove unix socket " ++ path ++ ": " ++ e))
          | none => (true, .ok ())

/-! ## The function-binding bridge (`webview.go`, `makeFuncWrapper`)

The bridge works on a user value through `reflect`.  The embedding keeps
exactly the reflective facts the source reads: whether the value is a
function, its input count, variadicity, and for each output whether its
type implements `error`.  Decoded Go values are opaque to the bridge
(only `encoding/json` and the user function produce or consume them), so
they are represented by an abstract carrier `GoVal`. -/

/-- Opaque representation of a reflected Go value.  The bridge never
inspects these; they are produced by the external JSON decoder and
consumed by the external user function / JSON encoder. -/
abbrev GoVal := String

/-- The reflective view of a candidate bind value: either not a function,
or a function with `numIn` declared parameters, a variadic flag, and one
implements-`error` flag per declared output. -/
inductive BindValue where
  | nonFunc
  | func (numIn : Nat) (isVariadic : Bool) (outImplsError : List Bool)
deriving DecidableEq, Repr

/-- The signature facts `makeFuncWrapper` caches for the invoker closure. -/
structure FuncSpec where
  numIn : Nat
  isVariadic : Bool
  outCount : Nat
  returnsError : Bool
deriving DecidableEq, Repr

/-- Bind-time validation of `makeFuncWrapper`: rejects non-functions,
more than two outputs, and a two-output function whose second output does
not implement `error`; otherwise caches the signature facts.  Mirrors the
checks in `webview.go` in source order. -/
def makeFuncWrapper (v : BindValue) : Except String FuncSpec :=
  match v with
  | .nonFunc => .error "only functions can be bound"
  | .func numIn isVariadic outs =>
      if outs.length > 2 then
        .error "function may only return a value or value+error"
      else
        let returnsError :=
          match outs with
          | [b] => b
          | _ => false
        match outs with
        | [_, b2] =>
            if !b2 then .error "second return value must implement error"
            else .ok ⟨numIn, isVariadic, 2, returnsError⟩
        | _ => .ok ⟨numIn, isVariadic, outs.length, returnsError⟩

/-- The argument-count guard of the invoker closure, exactly the source
condition `(!isVariadic && len(rawArgs) != numIn) || (isVariadic &&
len(rawArgs) < numIn-1)`. -/
def arityMismatch (numIn : Nat) (isVariadic : Bool) (n : Nat) : Bool :=
  (!isVariadic && n ≠ numIn) || (isVariadic && n < numIn - 1)

/-- The per-argument decode loop: `rawArgs[i]` is decoded into the
declared parameter type at slot `i`, trailing variadic elements into the
final parameter's element type.  The decoder itself is the external
`encoding/json` collaborator, indexed by the selected type slot; the
first failure aborts the whole call. -/
def decodeArgsFrom (s : FuncSpec) (decode : Nat → GoVal → Except String GoVal) :
    Nat → List GoVal → Except String (List GoVal)
  | _, [] => .ok []
  | i, a :: rest =>
      let tIdx := if s.isVariadic && s.numIn - 1 ≤ i then s.numIn - 1 else i
      match decode tIdx a with
      | .error e => .error e
      | .ok v =>
          match decodeArgsFrom s decode (i + 1) rest with
          | .error e => .error e
          | .ok vs => .ok (v :: vs)

/-- A Go interface value sitting in one of the function's output slots:
a nil interface, a non-error value, or a value implementing `error`
(carried by its message). -/
inductive IVal where
  | nil
  | val (v : GoVal)
  | errv (m : String)
deriving DecidableEq, Repr

/-- `res[i].Interface()` read as a bare `any` result value. -/
def IVal.toAny : IVal → Option GoVal
  | .nil => none
  | .val v => some v
  | .errv m => some m

/-- Outcome of `v.Call(args)` on the user function: the list of output
interface values, or a panic raised by the user code. -/
inductive CallRes where
  | ret (res : List IVal)
  | panicked (msg : String)
deriving DecidableEq, Repr

/-- The result-shaping `switch outCount` of the invoker closure.  The
`interface conversion` and `index out of range` outcomes are the panics
Go itself would raise on an output list that does not match the validated
signature (unreachable for real reflected calls); the `default` branch is
the source's own `panic("unreachable")`. -/
def shapeResult (s : FuncSpec) (res : List IVal) :
    Outcome (Option GoVal × Option String) :=
  match s.outCount with
  | 0 => .ok (none, none)
  | 1 =>
      match res with
      | r0 :: _ =>
          if s.returnsError then
            match r0 with
            | .nil => .ok (none, none)
            | .errv m => .ok (none, some m)
            | .val _ => .panicked "interface conversion: interface is not error"
          else .ok (r0.toAny, none)
      | [] => .panicked "runtime error: index out of range"
  | 2 =>
      match res with
      | r0 :: r1 :: _ =>
          match r1 with
          | .nil => .ok (r0.toAny, none)
          | .errv m => .ok (r0.toAny, some m)
          | .val _ => .panicked "interface conversion: interface is not error"
      | _ => .panicked "runtime error: index out of range"
  | _ => .panicked "unreachable"

/-- The invoker closure returned by `makeFuncWrapper`, i.e. the body of
`fn(id, req)`.  Its external collaborators are explicit: `parsed` is the
outcome of `json.Unmarshal([]byte(req), &rawArgs)`, `decode` the
per-argument `json.Unmarshal` into the reflect-allocated parameter value,
and `call` the reflective `v.Call` on the user function.  There is no
`recover` in the source, so a panic raised by `call` is the whole
invocation's outcome. -/
def invokeFn (s : FuncSpec) (decode : Nat → GoVal → Except String GoVal)
    (call : List GoVal → CallRes) (parsed : Except String (List GoVal)) :
    Outcome (Option GoVal × Option String) :=
  match parsed with
  | .error e => .ok (none, some e)
  | .ok rawArgs =>
      if arityMismatch s.numIn s.isVariadic rawArgs.length then
        .ok (none, some "function arguments mismatch")
      else
        match decodeArgsFrom s decode 0 rawArgs with
        | .error e => .ok (none, some e)
        | .ok args =>
            match call args with
            | .panicked m => .panicked m
            | .ret res => shapeResult s res

/-! ## Result marshaling (`webview.go`, `callAndMarshal`,
`marshalOrFallback`) and the model of `encoding/json` string encoding -/

/-- Lower-case hex digit of `n % 16` (digits `0`-`9` then `a`-`f`). -/
def hexDigit (n : Nat) : Char :=
  let m := n % 16
  if m < 10 then Char.ofNat (48 + m) else Char.ofNat (87 + m)

/-- Model of how Go's `encoding/json` encoder escapes one character of a
string: quote, backslash, the HTML-sensitive characters and control
characters are escaped, everything else is emitted verbatim. -/
def escapeChar (c : Char) : List Char :=
  if c = '"' then ['\\', '"']
  else if c = '\\' then ['\\', '\\']
  else if c = '\n' then ['\\', 'n']
  else if c = '\r' then ['\\', 'r']
  else if c = '\t' then ['\\', 't']
  else if c = '<' ∨ c = '>' ∨ c = '&' ∨ c.toNat < 32 then
    ['\\', 'u', '0', '0', hexDigit (c.toNat / 16), hexDigit (c.toNat % 16)]
  else [c]

/-- Model of `json.Marshal` applied to a Go `string` value: Go's encoder
never fails on a string, it produces the quoted, escaped literal. -/
def jsonEncodeString (s : String) : String :=
  ⟨'"' :: (s.data.flatMap escapeChar ++ ['"'])⟩

/-- `json.Marshal` at type `string`, as the `Except`-shaped collaborator
the source calls (it always succeeds). -/
def goJsonMarshalString (msg : String) : Except String String :=
  .ok (jsonEncodeString msg)

/-- Embedding of `marshalOrFallback(msg string) string`, parameterised by
the `json.Marshal`-at-`string` collaborator `enc`: on encoder failure the
message is wrapped in quotes manually. -/
def marshalOrFallback (enc : String → Except String String) (msg : String) :
    String :=
  match enc msg with
  | .error _ => "\"" ++ msg ++ "\""
  | .ok data => data

/-- Embedding of `callAndMarshal`: takes the outcome of `fn(id, req)`
(the invoker result) and the external `json.Marshal` on the result value,
and produces the `(status, json)` pair — or propagates a panic, since the
function contains no `recover`. -/
def callAndMarshal (fnResult : Outcome (Option GoVal × Option String))
    (marshalValue : Option GoVal → Except String String) :
    Outcome (Int × String) :=
  match fnResult with
  | .panicked m => .panicked m
  | .ok (_, some e) => .ok (-1, marshalOrFallback goJsonMarshalString e)
  | .ok (v, none) =>
      match marshalValue v with
      | .error e => .ok (-1, marshalOrFallback goJsonMarshalString e)
      | .ok data => .ok (0, data)

/-! ## Validity checker for JSON string literals -/

/-- Decidable check that a character is a JSON hex-escape digit. -/
def isHexChar (c : Char) : Bool :=
  ('0' ≤ c && c ≤ '9') || ('a' ≤ c && c ≤ 'f') || ('A' ≤ c && c ≤ 'F')

/-- Checks that a character list is the interior of a JSON string literal
followed by the closing quote at the very end: escapes are well-formed
and no unescaped quote, backslash or control character appears. -/
def jsonStrTail : List Char → Bool
  | [] => false
  | c :: rest =>
      if c = '"' then rest.isEmpty
      else if c = '\\' then
        match rest with
        | [] => false
        | e :: rest' =>
            if e = 'u' then
              match rest' with
              | h1 :: h2 :: h3 :: h4 :: rest'' =>
                  isHexChar h1 && isHexChar h2 && isHexChar h3 &&
                    isHexChar h4 && jsonStrTail rest''
              | _ => false
            else if e = '"' || e = '\\' || e = '/' || e = 'b' || e = 'f' ||
                e = 'n' || e = 'r' || e = 't' then
              jsonStrTail rest'
            else false
      else decide (32 ≤ c.toNat) && jsonStrTail rest

/-- A string is a valid JSON string literal: an opening quote, a valid
interior, and the closing quote at the very end. -/
def isJsonStringLit (s : String) : Bool :=
  match s.data with
  | '"' :: rest => jsonStrTail rest
  | _ => false

/-! ## Dispatch and binding tables (`webview.go`) -/

/-- Association-list lookup, the model of a Go map read. -/
def alookup {κ β : Type} [DecidableEq κ] (k : κ) :
    List (κ × β) → Option β
  | [] => none
  | (k', v) :: rest => if k' = k then some v else alookup k rest

/-- Association-list key removal, the model of Go's `delete(m, k)`. -/
def aerase {κ β : Type} [DecidableEq κ] (k : κ) :
    List (κ × β) → List (κ × β)
  | [] => []
  | (k', v) :: rest =>
      if k' = k then aerase k rest else (k', v) :: aerase k rest

/-- A registered binding: the invoker's cached signature and the owning
window handle (`bindingEntry` in the source; the closure itself is
represented by its cached `FuncSpec`). -/
structure BindingEntry where
  w : Nat
  fn : FuncSpec
deriving DecidableEq, Repr

/-- The mutable binding state of `glazeRuntime`: the handle-keyed entry
map, the name index, and the monotonically increasing counter. -/
structure BindState where
  bindingMap : List (Nat × BindingEntry)
  boundNames : List (String × Nat)
  bindingCounter : Nat
deriving DecidableEq, Repr

/-- Embedding of `(*webview).Bind`: validate the function first (no
registration happens on a validation error), reject a name that already
has a live registration, otherwise register under a fresh counter key in
both tables. -/
def Bind (st : BindState) (name : String) (f : BindValue) (wHandle : Nat) :
    BindState × Except String Unit :=
  match makeFuncWrapper f with
  | .error e => (st, .error e)
  | .ok spec =>
      if (alookup name st.boundNames).isSome then
        (st, .error "function name already bound")
      else
        let contextKey := st.bindingCounter
        ({ bindingMap := (contextKey, ⟨wHandle, spec⟩) :: st.bindingMap,
           boundNames := (name, contextKey) :: st.boundNames,
           bindingCounter := contextKey + 1 }, .ok ())

/-- Embedding of `(*webview).Unbind`: a name with no live registration is
an error and leaves the tables unchanged; otherwise both the name index
and the handle-keyed entry are removed. -/
def Unbind (st : BindState) (name : String) :
    BindState × Except String Unit :=
  match alookup name st.boundNames with
  | none => (st, .error "function name not bound")
  | some contextKey =>
      ({ st with
          boundNames := aerase name st.boundNames,
          bindingMap := aerase contextKey st.bindingMap }, .ok ())

/-- The mutable dispatch state of `glazeRuntime`: pending closures keyed
by the monotonically increasing counter.  Closures are opaque, carried by
a type parameter. -/
structure DispatchState (F : Type) where
  dispatchMap : List (Nat × F)
  dispatchCounter : Nat
deriving Repr

/-- Embedding of `(*webview).Dispatch`: registers the closure under the
current counter value, increments the counter, and returns the handle
passed to the native `webview_dispatch` call. -/
def Dispatch {F : Type} (st : DispatchState F) (f : F) :
    DispatchState F × Nat :=
  let idx := st.dispatchCounter
  ({ dispatchMap := (idx, f) :: st.dispatchMap, dispatchCounter := idx + 1 },
    idx)

/-- Embedding of the dispatch callback registered in `Init`: looks up the
handle, removes the entry (before anything runs), and returns the closure
to execute — `none` when the handle is unknown, in which case nothing
runs. -/
def dispatchCB {F : Type} (st : DispatchState F) (arg : Nat) :
    DispatchState F × Option F :=
  let fn := alookup arg st.dispatchMap
  ({ st with dispatchMap := aerase arg st.dispatchMap }, fn)

/-- All keys in the dispatch map are below the counter — the invariant
that makes counter values fresh and never reused. -/
def dispatchKeysBelow {F : Type} (st : DispatchState F) : Prop :=
  ∀ p ∈ st.dispatchMap, p.1 < st.dispatchCounter

/-! ## Native string reading (`webview.go`, `goString`) -/

/-- Scan the bytes a non-null pointer points at, up to the first zero
byte.  `none` models the undefined behaviour of running past the provided
memory when no terminator is present. -/
def cScan : List Nat → Option (List Nat)
  | [] => none
  | b :: rest =>
      if b = 0 then some [] else (cScan rest).map (b :: ·)

/-- Embedding of `goString`: a null pointer yields the empty string
without any memory access; a non-null pointer (modelled with the byte
sequence it points at) yields the bytes before the first zero
terminator. -/
def goString : Option (List Nat) → Option (List Nat)
  | none => some []
  | some buf => cScan buf

/-! ## Claim theorems: transports and socket removal -/

/-- C2: `resolveAppTransport` behaves as the spec's table: `auto`/empty
resolve to tcp exactly on windows and to unix on every other OS; `tcp`
resolves to tcp on every OS; `unix` resolves to unix everywhere except
windows, where it is an error; every other requested value is an error. -/
theorem c2_resolveAppTransport_table :
    (∀ goos : String,
      resolveAppTransport "" goos =
        .ok (if goos = "windows" then "tcp" else "unix") ∧
      resolveAppTransport "auto" goos =
        .ok (if goos = "windows" then "tcp" else "unix")) ∧
    (∀ goos : String, resolveAppTransport "tcp" goos = .ok "tcp") ∧
    (∃ e, resolveAppTransport "unix" "windows" = .error e) ∧
    (∀ goos : String, goos ≠ "windows" →
      resolveAppTransport "unix" goos = .ok "unix") ∧
    (∀ requested goos : String,
      requested ≠ "" → requested ≠ "auto" → requested ≠ "tcp" →
      requested ≠ "unix" →
      ∃ e, resolveAppTransport requested goos = .error e) := by
  refine ⟨?_, ?_, ?_, ?_, ?_⟩
  · intro goos
    constructor <;>
      · unfold resolveAppTransport AppTransportAuto AppTransportTCP AppTransportUnix
        by_cases h : goos = "windows" <;> simp [h]
  · intro goos
    unfold resolveAppTransport AppTransportAuto AppTransportTCP AppTransportUnix
    simp
  · exact ⟨_, rfl⟩
  · intro goos h
    unfold resolveAppTransport AppTransportAuto AppTransportTCP AppTransportUnix
    simp [h]
  · intro requested goos h1 h2 h3 h4
    refine ⟨"webview: invalid transport " ++ requested, ?_⟩
    unfold resolveAppTransport AppTransportAuto AppTransportTCP AppTransportUnix
    simp [h1, h2, h3, h4]

/-- Witness for C2 at concrete inputs. -/
theorem c2_resolveAppTransport_table_witness :
    resolveAppTransport "auto" "linux" = .ok "unix" ∧
    resolveAppTransport "unix" "darwin" = .ok "unix" ∧
    ∃ e, resolveAppTransport "bogus" "linux" = .error e := by
  refine ⟨(c2_resolveAppTransport_table.1 "linux").2, ?_, ?_⟩
  · exact c2_resolveAppTransport_table.2.2.2.1 "darwin" (by decide)
  · exact c2_resolveAppTransport_table.2.2.2.2 "bogus" "linux"
      (by decide) (by decide) (by decide) (by decide)

/-- C7: `removeUnixSocket` is a safety-checked deletion: an existing
non-socket path yields an error and the file is not removed; a missing
path or the empty path yields success without removal; `os.Remove` is only
ever invoked when the path is nonempty and the stat result carries the
socket mode bit. -/
theorem c7_removeUnixSocket_safety :
    (∀ path mode removeErr, path ≠ "" → Nat.land mode modeSocket = 0 →
      (removeUnixSocket path (.info mode) removeErr).1 = false ∧
      ∃ e, (removeUnixSocket path (.info mode) removeErr).2 = .error e) ∧
    (∀ path removeErr, removeUnixSocket path .notExist removeErr = (false, .ok ())) ∧
    (∀ stat removeErr, removeUnixSocket "" stat removeErr = (false, .ok ())) ∧
    (∀ path stat removeErr, (removeUnixSocket path stat removeErr).1 = true →
      path ≠ "" ∧ ∃ mode, stat = .info mode ∧ Nat.land mode modeSocket ≠ 0) := by
  refine ⟨?_, ?_, ?_, ?_⟩
  · intro path mode removeErr hpath hmode
    unfold removeUnixSocket
    simp [hpath, hmode]
  · intro path removeErr
    unfold removeUnixSocket
    by_cases h : path = "" <;> simp [h]
  · intro stat removeErr
    unfold removeUnixSocket
    simp
  · intro path stat removeErr h
    unfold removeUnixSocket at h
    by_cases hp : path = ""
    · simp [hp] at h
    · refine ⟨hp, ?_⟩
      cases stat with
      | notExist => simp [hp] at h
      | statError e => simp [hp] at h
      | info mode =>
          refine ⟨mode, rfl, ?_⟩
          by_cases hm : Nat.land mode modeSocket = 0
          · simp [hp, hm] at h
          · exact hm

/-- Witness for C7 at concrete inputs: a regular file (mode bits without
the socket bit) occupying the socket path is not deleted. -/
theorem c7_removeUnixSocket_safety_witness :
    ((removeUnixSocket "/tmp/x.sock" (.info 420) none).1 = false ∧
      ∃ e, (removeUnixSocket "/tmp/x.sock" (.info 420) none).2 = .error e) ∧
    removeUnixSocket "/tmp/x.sock" .notExist none = (false, .ok ()) ∧
    removeUnixSocket "" (.info 420) none = (false, .ok ()) := by
  refine ⟨c7_removeUnixSocket_safety.1 "/tmp/x.sock" 420 none (by decide) (by decide),
    c7_removeUnixSocket_safety.2.1 "/tmp/x.sock" none,
    c7_removeUnixSocket_safety.2.2.1 (.info 420) none⟩

/-! ## Claim theorems: the function-binding bridge -/

/-- C3: bind-time validation rejects every non-function, every function
with more than two outputs, and every two-output function whose second
output does not implement `error`, each with a descriptive error — and
`Bind` performs no registration in that case; every other function value
is accepted. -/
theorem c3_makeFuncWrapper_validation :
    makeFuncWrapper .nonFunc = .error "only functions can be bound" ∧
    (∀ numIn isVar outs, outs.length > 2 →
      makeFuncWrapper (.func numIn isVar outs) =
        .error "function may only return a value or value+error") ∧
    (∀ numIn isVar b1, makeFuncWrapper (.func numIn isVar [b1, false]) =
        .error "second return value must implement error") ∧
    (∀ numIn isVar, makeFuncWrapper (.func numIn isVar []) =
        .ok ⟨numIn, isVar, 0, false⟩) ∧
    (∀ numIn isVar b, makeFuncWrapper (.func numIn isVar [b]) =
        .ok ⟨numIn, isVar, 1, b⟩) ∧
    (∀ numIn isVar b1, makeFuncWrapper (.func numIn isVar [b1, true]) =
        .ok ⟨numIn, isVar, 2, false⟩) ∧
    (∀ st name f w e, makeFuncWrapper f = .error e →
      Bind st name f w = (st, .error e)) := by
  refine ⟨rfl, ?_, ?_, ?_, ?_, ?_, ?_⟩
  · intro numIn isVar outs h
    unfold makeFuncWrapper
    simp only [if_pos h]
  · intro numIn isVar b1
    rfl
  · intro numIn isVar
    rfl
  · intro numIn isVar b
    rfl
  · intro numIn isVar b1
    rfl
  · intro st name f w e h
    unfold Bind
    rw [h]

/-- Witness for C3 at concrete inputs. -/
theorem c3_makeFuncWrapper_validation_witness :
    makeFuncWrapper (.func 1 false [true, true, false]) =
      .error "function may only return a value or value+error" ∧
    makeFuncWrapper (.func 2 true [false]) = .ok ⟨2, true, 1, false⟩ ∧
    Bind ⟨[], [], 0⟩ "f" .nonFunc 7 =
      (⟨[], [], 0⟩, .error "only functions can be bound") := by
  refine ⟨c3_makeFuncWrapper_validation.2.1 1 false [true, true, false]
      (by decide),
    c3_makeFuncWrapper_validation.2.2.2.2.1 2 true false,
    c3_makeFuncWrapper_validation.2.2.2.2.2.2 ⟨[], [], 0⟩ "f" .nonFunc 7 _
      c3_makeFuncWrapper_validation.1⟩

/-- C4: for a non-variadic invoker with `numIn` parameters, a parsed
argument array whose length differs from `numIn` yields the
argument-mismatch error (whatever the decoder or the function would do);
for a variadic invoker, a shorter-than-`numIn − 1` array yields the
mismatch error and any length ≥ `numIn − 1` passes the arity guard; a
JSON parse failure of the argument array is returned as a plain error
value, not a panic. -/
theorem c4_invoker_arity :
    (∀ s decode call e,
      invokeFn s decode call (.error e) = .ok (none, some e)) ∧
    (∀ s decode call raw, s.isVariadic = false → raw.length ≠ s.numIn →
      invokeFn s decode call (.ok raw) =
        .ok (none, some "function arguments mismatch")) ∧
    (∀ s decode call raw, s.isVariadic = true →
      raw.length < s.numIn - 1 →
      invokeFn s decode call (.ok raw) =
        .ok (none, some "function arguments mismatch")) ∧
    (∀ numIn n, numIn - 1 ≤ n → arityMismatch numIn true n = false) ∧
    (∀ numIn, arityMismatch numIn false numIn = false) := by
  refine ⟨?_, ?_, ?_, ?_, ?_⟩
  · intro s decode call e
    rfl
  · intro s decode call raw hvar hlen
    have hm : arityMismatch s.numIn s.isVariadic raw.length = true := by
      simp [arityMismatch, hvar, hlen]
    simp [invokeFn, hm]
  · intro s decode call raw hvar hlen
    have hm : arityMismatch s.numIn s.isVariadic raw.length = true := by
      simp [arityMismatch, hvar, hlen]
    simp [invokeFn, hm]
  · intro numIn n h
    simp [arityMismatch, Nat.not_lt.mpr h]
  · intro numIn
    simp [arityMismatch]

/-- Witness for C4 at concrete inputs. -/
theorem c4_invoker_arity_witness :
    invokeFn ⟨2, false, 1, false⟩ (fun _ a => .ok a)
        (fun _ => .ret [.val "3"]) (.ok ["1"]) =
      .ok (none, some "function arguments mismatch") ∧
    invokeFn ⟨1, true, 1, false⟩ (fun _ a => .ok a)
        (fun _ => .ret [.val "0"]) (.error "invalid character") =
      .ok (none, some "invalid character") ∧
    arityMismatch 3 true 2 = false := by
  refine ⟨c4_invoker_arity.2.1 ⟨2, false, 1, false⟩ _ _ ["1"] rfl (by decide),
    c4_invoker_arity.1 ⟨1, true, 1, false⟩ _ _ "invalid character",
    c4_invoker_arity.2.2.2.1 3 2 (by decide)⟩

/-- C5: the invoker shapes the call result exactly as the claim states:
zero outputs → (nil, nil); one error-implementing output → (nil, that
possibly-nil error); one bare output → (that value, nil); two outputs →
(first value, second converted to error, nil-safe).  The first conjunct
ties the shaping step to the full invoker pipeline. -/
theorem c5_result_shaping :
    (∀ s decode call raw args res,
      arityMismatch s.numIn s.isVariadic raw.length = false →
      decodeArgsFrom s decode 0 raw = .ok args →
      call args = .ret res →
      invokeFn s decode call (.ok raw) = shapeResult s res) ∧
    (∀ numIn isVar re res,
      shapeResult ⟨numIn, isVar, 0, re⟩ res = .ok (none, none)) ∧
    (∀ numIn isVar rest,
      shapeResult ⟨numIn, isVar, 1, true⟩ (.nil :: rest) =
        .ok (none, none)) ∧
    (∀ numIn isVar m rest,
      shapeResult ⟨numIn, isVar, 1, true⟩ (.errv m :: rest) =
        .ok (none, some m)) ∧
    (∀ numIn isVar r0 rest,
      shapeResult ⟨numIn, isVar, 1, false⟩ (r0 :: rest) =
        .ok (r0.toAny, none)) ∧
    (∀ numIn isVar re r0 rest,
      shapeResult ⟨numIn, isVar, 2, re⟩ (r0 :: .nil :: rest) =
        .ok (r0.toAny, none)) ∧
    (∀ numIn isVar re r0 m rest,
      shapeResult ⟨numIn, isVar, 2, re⟩ (r0 :: .errv m :: rest) =
        .ok (r0.toAny, some m)) := by
  refine ⟨?_, ?_, ?_, ?_, ?_, ?_, ?_⟩
  · intro s decode call raw args res hm hd hc
    simp [invokeFn, hm, hd, hc]
  · intro numIn isVar re res
    rfl
  · intro numIn isVar rest
    rfl
  · intro numIn isVar m rest
    rfl
  · intro numIn isVar r0 rest
    rfl
  · intro numIn isVar re r0 rest
    rfl
  · intro numIn isVar re r0 m rest
    rfl

/-- Witness for C5 at concrete inputs: a two-parameter function returning
`(value, nil)` invoked with two decoded arguments. -/
theorem c5_result_shaping_witness :
    invokeFn ⟨2, false, 2, false⟩ (fun _ a => .ok a)
        (fun args => .ret [.val (String.join args), .nil]) (.ok ["3", "4"]) =
      .ok (some "34", none) := by
  have h := c5_result_shaping.1 ⟨2, false, 2, false⟩ (fun _ a => .ok a)
    (fun args => .ret [.val (String.join args), .nil]) ["3", "4"]
    ["3", "4"] [.val "34", .nil] (by decide) rfl rfl
  rw [h]
  exact c5_result_shaping.2.2.2.2.2.1 2 false false (.val "34") []

/-! ## Claim theorems: panic propagation and result marshaling -/

/-- C1 (code bug): a panic raised by the bound user function is NOT
converted to a structured error result.  `func() { panic("boom") }`
validates successfully, yet invoking it through the invoker and
`callAndMarshal` propagates the panic (there is no `recover` between the
user function and the goroutine spawned by the binding callback), so no
`(status, json)` pair is ever produced and the panic reaches the
goroutine boundary, terminating the process. -/
theorem c1_panic_escapes :
    makeFuncWrapper (.func 0 false []) = .ok ⟨0, false, 0, false⟩ ∧
    callAndMarshal
        (invokeFn ⟨0, false, 0, false⟩ (fun _ a => .ok a)
          (fun _ => .panicked "boom") (.ok []))
        (fun _ => .ok "null") =
      .panicked "boom" := ⟨rfl, rfl⟩

/-- JSON hex digits produced by `hexDigit` pass the literal checker. -/
lemma isHexChar_hexDigit (n : Nat) : isHexChar (hexDigit n) = true := by
  unfold hexDigit
  have h : n % 16 < 16 := Nat.mod_lt _ (by norm_num)
  set m := n % 16 with hm
  interval_cases m <;> decide

/-- One escaped character consumes exactly itself in the literal
checker. -/
lemma jsonStrTail_escape (c : Char) (l : List Char) :
    jsonStrTail (escapeChar c ++ l) = jsonStrTail l := by
  unfold escapeChar
  split_ifs with h1 h2 h3 h4 h5 h6
  · conv_lhs => rw [jsonStrTail.eq_def]
    simp
  · conv_lhs => rw [jsonStrTail.eq_def]
    simp
  · conv_lhs => rw [jsonStrTail.eq_def]
    simp
  · conv_lhs => rw [jsonStrTail.eq_def]
    simp
  · conv_lhs => rw [jsonStrTail.eq_def]
    simp
  · have h0 : isHexChar '0' = true := by decide
    conv_lhs => rw [jsonStrTail.eq_def]
    simp [isHexChar_hexDigit, h0]
  · have h32 : 32 ≤ c.toNat := by
      push_neg at h6
      exact h6.2.2.2
    conv_lhs => rw [jsonStrTail.eq_def]
    simp [h1, h2, h32]

/-- The escaped interior of any string followed by the closing quote
passes the literal checker. -/
lemma jsonStrTail_interior (cs : List Char) :
    jsonStrTail (cs.flatMap escapeChar ++ ['"']) = true := by
  induction cs with
  | nil => simp [jsonStrTail]
  | cons c cs ih =>
      rw [List.flatMap_cons, List.append_assoc, jsonStrTail_escape]
      exact ih

/-- The modelled `json.Marshal` of a string is a valid JSON string
literal. -/
lemma isJsonStringLit_jsonEncodeString (msg : String) :
    isJsonStringLit (jsonEncodeString msg) = true := by
  show jsonStrTail (msg.data.flatMap escapeChar ++ ['"']) = true
  exact jsonStrTail_interior msg.data

/-- C9: `callAndMarshal` returns status 0 with the JSON encoding of the
result on success and status −1 with the error message serialized through
`marshalOrFallback` on failure (invoker error or marshal failure);
`marshalOrFallback` returns the encoder's output when it succeeds and the
manually quoted message when it fails, and with the (never-failing) Go
string encoder its output is always a valid JSON string literal. -/
theorem c9_callAndMarshal_status :
    (∀ (marshalValue : Option GoVal → Except String String) v data,
      marshalValue v = .ok data →
      callAndMarshal (.ok (v, none)) marshalValue = .ok (0, data)) ∧
    (∀ (marshalValue : Option GoVal → Except String String) v e,
      callAndMarshal (.ok (v, some e)) marshalValue =
        .ok (-1, marshalOrFallback goJsonMarshalString e)) ∧
    (∀ (marshalValue : Option GoVal → Except String String) v e,
      marshalValue v = .error e →
      callAndMarshal (.ok (v, none)) marshalValue =
        .ok (-1, marshalOrFallback goJsonMarshalString e)) ∧
    (∀ (enc : String → Except String String) msg data,
      enc msg = .ok data → marshalOrFallback enc msg = data) ∧
    (∀ (enc : String → Except String String) msg e,
      enc msg = .error e →
      marshalOrFallback enc msg = "\"" ++ msg ++ "\"") ∧
    (∀ msg, isJsonStringLit (marshalOrFallback goJsonMarshalString msg) =
      true) ∧
    (-1 : Int) ≠ 0 := by
  refine ⟨?_, ?_, ?_, ?_, ?_, ?_, by decide⟩
  · intro marshalValue v data h
    simp [callAndMarshal, h]
  · intro marshalValue v e
    rfl
  · intro marshalValue v e h
    simp [callAndMarshal, h]
  · intro enc msg data h
    simp [marshalOrFallback, h]
  · intro enc msg e h
    simp [marshalOrFallback, h]
  · intro msg
    exact isJsonStringLit_jsonEncodeString msg

/-- Witness for C9 at concrete inputs. -/
theorem c9_callAndMarshal_status_witness :
    callAndMarshal (.ok (some "7", none)) (fun _ => .ok "7") = .ok (0, "7") ∧
    callAndMarshal (.ok (none, some "boom")) (fun _ => .ok "null") =
      .ok (-1, "\"boom\"") ∧
    marshalOrFallback (fun _ => .error "loop") "bad" = "\"bad\"" ∧
    isJsonStringLit
      (marshalOrFallback goJsonMarshalString "say \"hi\"\n") = true := by
  refine ⟨c9_callAndMarshal_status.1 (fun _ => .ok "7") (some "7") "7" rfl,
    ?_, c9_callAndMarshal_status.2.2.2.2.1 (fun _ => .error "loop") "bad"
      "loop" rfl,
    c9_callAndMarshal_status.2.2.2.2.2.1 "say \"hi\"\n"⟩
  have h := c9_callAndMarshal_status.2.1 (fun _ => .ok "null") none "boom"
  rw [h]
  rfl

/-! ## Claim theorems: tables and native strings -/

/-- Erasing a key removes it from lookup. -/
lemma alookup_aerase_self {κ β : Type} [DecidableEq κ] (k : κ)
    (l : List (κ × β)) : alookup k (aerase k l) = none := by
  induction l with
  | nil => rfl
  | cons p rest ih =>
      obtain ⟨k', v⟩ := p
      by_cases h : k' = k
      · simp [aerase, h, ih]
      · simp [aerase, alookup, h, ih]

/-- Erasing an absent key is a no-op. -/
lemma aerase_of_alookup_none {κ β : Type} [DecidableEq κ] (k : κ)
    (l : List (κ × β)) (h : alookup k l = none) : aerase k l = l := by
  induction l with
  | nil => rfl
  | cons p rest ih =>
      obtain ⟨k', v⟩ := p
      by_cases hk : k' = k
      · simp [alookup, hk] at h
      · simp only [alookup, if_neg hk] at h
        simp [aerase, hk, ih h]

/-- A key bound in the list cannot exceed every key of the list. -/
lemma alookup_none_of_lt {β : Type} (c : Nat) (l : List (Nat × β))
    (h : ∀ p ∈ l, p.1 < c) : alookup c l = none := by
  induction l with
  | nil => rfl
  | cons p rest ih =>
      obtain ⟨k', v⟩ := p
      have hk : k' < c := h (k', v) (List.mem_cons_self _ _)
      have hne : k' ≠ c := Nat.ne_of_lt hk
      simp only [alookup, if_neg hne]
      exact ih fun q hq => h q (List.mem_cons_of_mem _ hq)

/-- C6: binding a name with a live registration fails and leaves both
tables unchanged; unbinding an unbound name fails and leaves the tables
unchanged; after a successful `Unbind` of a name, a `Bind` of the same
name with a validating function succeeds. -/
theorem c6_bind_unbind_tables :
    (∀ st name f w, (alookup name st.boundNames).isSome →
      ∃ e, Bind st name f w = (st, .error e)) ∧
    (∀ st name, alookup name st.boundNames = none →
      Unbind st name = (st, .error "function name not bound")) ∧
    (∀ st st' name f w spec, makeFuncWrapper f = .ok spec →
      Unbind st name = (st', .ok ()) →
      (Bind st' name f w).2 = .ok ()) := by
  refine ⟨?_, ?_, ?_⟩
  · intro st name f w h
    unfold Bind
    cases hf : makeFuncWrapper f with
    | error e => exact ⟨e, rfl⟩
    | ok spec =>
        refine ⟨"function name already bound", ?_⟩
        simp [h]
  · intro st name h
    unfold Unbind
    rw [h]
  · intro st st' name f w spec hf hu
    unfold Unbind at hu
    cases hb : alookup name st.boundNames with
    | none =>
        rw [hb] at hu
        simp at hu
    | some contextKey =>
        rw [hb] at hu
        have hst' : ({ st with
            bindingMap := aerase contextKey st.bindingMap,
            boundNames := aerase name st.boundNames } : BindState) = st' :=
          congrArg Prod.fst hu
        unfold Bind
        rw [hf]
        have hnone : alookup name st'.boundNames = none := by
          rw [← hst']
          exact alookup_aerase_self name st.boundNames
        simp [hnone]

/-- Witness for C6 at concrete inputs. -/
theorem c6_bind_unbind_tables_witness :
    (∃ e, Bind ⟨[(0, ⟨7, ⟨0, false, 0, false⟩⟩)], [("f", 0)], 1⟩ "f"
        (.func 0 false []) 7 =
      (⟨[(0, ⟨7, ⟨0, false, 0, false⟩⟩)], [("f", 0)], 1⟩, .error e)) ∧
    Unbind ⟨[], [], 0⟩ "g" = (⟨[], [], 0⟩, .error "function name not bound") ∧
    (Bind (Unbind ⟨[(0, ⟨7, ⟨0, false, 0, false⟩⟩), (1, ⟨7, ⟨1, false, 0, false⟩⟩)],
        [("f", 0), ("g", 1)], 2⟩ "f").1 "f" (.func 0 false []) 7).2 = .ok () := by
  refine ⟨c6_bind_unbind_tables.1 _ "f" (.func 0 false []) 7 (by decide), ?_, ?_⟩
  · exact c6_bind_unbind_tables.2.1 ⟨[], [], 0⟩ "g" rfl
  · exact c6_bind_unbind_tables.2.2
      ⟨[(0, ⟨7, ⟨0, false, 0, false⟩⟩), (1, ⟨7, ⟨1, false, 0, false⟩⟩)],
        [("f", 0), ("g", 1)], 2⟩
      (Unbind ⟨[(0, ⟨7, ⟨0, false, 0, false⟩⟩), (1, ⟨7, ⟨1, false, 0, false⟩⟩)],
        [("f", 0), ("g", 1)], 2⟩ "f").1
      "f" (.func 0 false []) 7 ⟨0, false, 0, false⟩ rfl rfl

/-- C8: `Dispatch` registers the closure under the current counter value
and increments the counter; under the keys-below-counter invariant the
fresh handle was never in the table, so no handle is reused; the dispatch
callback removes the entry before handing the closure out, a second
callback with the same handle finds no entry and is a no-op, and a
callback with a never-registered handle is a no-op. -/
theorem c8_dispatch_at_most_once :
    (∀ (F : Type) (st : DispatchState F) (f : F),
      (Dispatch st f).2 = st.dispatchCounter ∧
      (Dispatch st f).1.dispatchCounter = st.dispatchCounter + 1 ∧
      alookup st.dispatchCounter (Dispatch st f).1.dispatchMap = some f) ∧
    (∀ (F : Type) (st : DispatchState F), dispatchKeysBelow st →
      alookup st.dispatchCounter st.dispatchMap = none ∧
      ∀ f, dispatchKeysBelow (Dispatch st f).1) ∧
    (∀ (F : Type) (st : DispatchState F) (h : Nat) (fn : F),
      alookup h st.dispatchMap = some fn →
      dispatchCB st h =
        ({ st with dispatchMap := aerase h st.dispatchMap }, some fn) ∧
      dispatchCB (dispatchCB st h).1 h = ((dispatchCB st h).1, none)) ∧
    (∀ (F : Type) (st : DispatchState F) (h : Nat),
      alookup h st.dispatchMap = none → dispatchCB st h = (st, none)) := by
  refine ⟨?_, ?_, ?_, ?_⟩
  · intro F st f
    refine ⟨rfl, rfl, ?_⟩
    simp [Dispatch, alookup]
  · intro F st hinv
    refine ⟨alookup_none_of_lt _ _ hinv, ?_⟩
    intro f p hp
    rcases List.mem_cons.mp hp with hhd | htl
    · rw [hhd]
      exact Nat.lt_succ_self _
    · exact Nat.lt_succ_of_lt (hinv p htl)
  · intro F st h fn hl
    refine ⟨by simp [dispatchCB, hl], ?_⟩
    have hnone : alookup h (aerase h st.dispatchMap) = none :=
      alookup_aerase_self h st.dispatchMap
    have herase : aerase h (aerase h st.dispatchMap) =
        aerase h st.dispatchMap :=
      aerase_of_alookup_none _ _ hnone
    simp [dispatchCB, hnone, herase]
  · intro F st h hl
    have herase : aerase h st.dispatchMap = st.dispatchMap :=
      aerase_of_alookup_none _ _ hl
    simp [dispatchCB, hl, herase]

/-- Witness for C8 at concrete inputs. -/
theorem c8_dispatch_at_most_once_witness :
    alookup 2 (DispatchState.mk ([(1, 11), (0, 10)] : List (Nat × Nat)) 2).dispatchMap =
      none ∧
    dispatchCB (DispatchState.mk ([(1, 11), (0, 10)] : List (Nat × Nat)) 2) 1 =
      (⟨[(0, 10)], 2⟩, some 11) ∧
    dispatchCB (DispatchState.mk ([(0, 10)] : List (Nat × Nat)) 2) 1 =
      (⟨[(0, 10)], 2⟩, none) := by
  refine ⟨(c8_dispatch_at_most_once.2.1 Nat ⟨[(1, 11), (0, 10)], 2⟩ ?_).1, ?_, ?_⟩
  · intro p hp
    fin_cases hp <;> decide
  · have h := (c8_dispatch_at_most_once.2.2.1 Nat ⟨[(1, 11), (0, 10)], 2⟩ 1 11 rfl).1
    rw [h]
    rfl
  · exact c8_dispatch_at_most_once.2.2.2 Nat ⟨[(0, 10)], 2⟩ 1 rfl

/-- The C scan stops exactly at the first zero byte when one exists. -/
lemma cScan_eq_takeWhile (buf : List Nat) (h : 0 ∈ buf) :
    cScan buf = some (buf.takeWhile (· ≠ 0)) := by
  induction buf with
  | nil => cases h
  | cons b rest ih =>
      by_cases hb : b = 0
      · subst hb
        simp [cScan, List.takeWhile]
      · have hrest : 0 ∈ rest := by
          rcases List.mem_cons.mp h with h0 | h0
          · exact absurd h0.symm hb
          · exact h0
        simp [cScan, List.takeWhile, hb, ih hrest]

/-- C10: `goString` returns the empty string for a null pointer without
touching memory, and for a non-null pointer to a null-terminated buffer
returns exactly the bytes before the first zero terminator. -/
theorem c10_goString :
    goString none = some [] ∧
    ∀ buf, 0 ∈ buf →
      goString (some buf) = some (buf.takeWhile (· ≠ 0)) := by
  exact ⟨rfl, fun buf h => cScan_eq_takeWhile buf h⟩

/-- Witness for C10 at a concrete null-terminated buffer
(`"hi\0x"`). -/
theorem c10_goString_witness :
    goString (some [104, 105, 0, 120]) = some [104, 105] := by
  have h := c10_goString.2 [104, 105, 0, 120] (by decide)
  rw [h]
  rfl

end Glaze
